import Mathlib

/-!
Shallow embedding of the hstat rolling time window (src/timewindow.go).

Modelling conventions:
- Go float64 bucket values are modelled as rationals: every operation of the
  source on bucket values is addition, subtraction, division or an order
  comparison, all exact here.
- Go time.Time and time.Duration are int64 nanosecond counts, modelled as ℤ.
  Go integer division truncates toward zero, modelled by Int.tdiv; the Go
  modulo operator is Int.tmod.
- Go slice indexing panics when the index is out of range; a panicking
  operation is modelled as returning none. Methods that mutate the receiver
  are state transformers returning the post-state.
- Calls of time.Now() in the source become explicit now parameters.
-/

namespace HStat

/-- Bucket values: Go float64, modelled as ℚ. -/
abbrev Value := ℚ

/-- The TimeWindow struct of src/timewindow.go (lines 13-21), without the
mutex, which only serialises access and carries no data. -/
structure TimeWindow where
  buckets : List Value
  size : ℤ
  duration : ℤ
  lastTime : ℤ
  cursor : ℤ
  lastUpdate : ℤ
deriving DecidableEq, Repr

/-- Go slice read l[i]: some value when 0 <= i < len(l), none (panic) otherwise. -/
def getBucket (l : List Value) (i : ℤ) : Option Value :=
  if 0 ≤ i then l.get? i.toNat else none

/-- Go slice write l[i] = v: the updated slice when 0 <= i < len(l),
none (panic) otherwise. -/
def setBucket (l : List Value) (i : ℤ) (v : Value) : Option (List Value) :=
  if 0 ≤ i ∧ i < (l.length : ℤ) then some (l.set i.toNat v) else none

/-- NewTimeWindow (lines 27-34): all buckets zero, cursor 0, lastTime = now,
lastUpdate left at the zero time. The now parameter models time.Now(). -/
def NewTimeWindow (size : ℤ) (duration : ℤ) (now : ℤ) : TimeWindow :=
  { buckets := List.replicate size.toNat 0
    size := size
    duration := duration
    lastTime := now
    cursor := 0
    lastUpdate := 0 }

/-- The loop body of rotate (lines 63-66), iterated n times: each step does
cursor = (cursor + 1) % size followed by buckets[cursor] = 0. -/
def rotateLoop (size : ℤ) : Nat → ℤ → List Value → Option (ℤ × List Value)
  | 0, cursor, buckets => some (cursor, buckets)
  | n + 1, cursor, buckets =>
    let c := Int.tmod (cursor + 1) size
    match setBucket buckets c 0 with
    | none => none
    | some b => rotateLoop size n c b

/-- rotate (lines 49-70). passed is the Go expression
int(now.Sub(w.lastTime) / w.duration), a truncating int64 division, which
panics when duration is zero. On passed <= 0 the state is untouched; on
passed >= size all buckets are zeroed in place and cursor becomes 0;
otherwise the loop advances the cursor passed times, zeroing each bucket it
enters; in the last two cases lastTime becomes now. -/
def rotate (now : ℤ) (w : TimeWindow) : Option TimeWindow :=
  if w.duration = 0 then none
  else
    let passed := Int.tdiv (now - w.lastTime) w.duration
    if passed ≤ 0 then some w
    else if w.size ≤ passed then
      some { w with buckets := w.buckets.map (fun _ => 0), cursor := 0, lastTime := now }
    else
      match rotateLoop w.size passed.toNat w.cursor w.buckets with
      | none => none
      | some (c, b) => some { w with cursor := c, buckets := b, lastTime := now }

/-- Append (lines 37-46): rotate, then overwrite the current bucket. -/
def Append (now : ℤ) (value : Value) (w : TimeWindow) : Option TimeWindow := do
  let w ← rotate now w
  let b ← setBucket w.buckets w.cursor value
  pure { w with buckets := b }

/-- Sum (lines 73-82): sum of all bucket values. -/
def Sum (w : TimeWindow) : Value :=
  w.buckets.foldl (fun s v => s + v) 0

/-- Count (lines 85-96): number of buckets whose value is non-zero. -/
def Count (w : TimeWindow) : ℤ :=
  w.buckets.foldl (fun n v => if v ≠ 0 then n + 1 else n) 0

/-- Avg (lines 99-108): Sum divided by Count, or 0 when Count is 0. -/
def Avg (w : TimeWindow) : Value :=
  let count := Count w
  if count = 0 then 0 else Sum w / (count : ℚ)

/-- Inc (lines 111-120): rotate, set lastUpdate to now, then add delta to the
current bucket. -/
def Inc (now : ℤ) (delta : Value) (w : TimeWindow) : Option TimeWindow := do
  let w1 ← rotate now w
  let w2 := { w1 with lastUpdate := now }
  let v ← getBucket w2.buckets w2.cursor
  let b ← setBucket w2.buckets w2.cursor (v + delta)
  pure { w2 with buckets := b }

/-- Dec (lines 123-132): rotate, set lastUpdate to now, then subtract delta
from the current bucket. -/
def Dec (now : ℤ) (delta : Value) (w : TimeWindow) : Option TimeWindow := do
  let w1 ← rotate now w
  let w2 := { w1 with lastUpdate := now }
  let v ← getBucket w2.buckets w2.cursor
  let b ← setBucket w2.buckets w2.cursor (v - delta)
  pure { w2 with buckets := b }

/-- Reset (lines 135-143): rotate, then overwrite the current bucket. -/
def Reset (now : ℤ) (value : Value) (w : TimeWindow) : Option TimeWindow := do
  let w ← rotate now w
  let b ← setBucket w.buckets w.cursor value
  pure { w with buckets := b }

/-- HistogramOption (lines 146-148). -/
structure HistogramOption where
  Height : ℤ
deriving DecidableEq, Repr

/-- DefaultHistogramOption (lines 151-155): height 20. -/
def DefaultHistogramOption : HistogramOption := { Height := 20 }

/-- The Go expression int(d.Seconds()) for a duration of d nanoseconds: the
number of whole seconds, truncated toward zero. -/
def durationSeconds (d : ℤ) : ℤ := Int.tdiv d 1000000000

/-- Entry i of the values array of PrintHistogram (lines 178-190): the bucket
at index (cursor - i + size) % size when it is strictly positive, else the
zero the array slot was initialised with. -/
def histEntry (w : TimeWindow) (i : Nat) : Option Value :=
  let idx := Int.tmod (w.cursor - (i : ℤ) + w.size) w.size
  (getBucket w.buckets idx).map (fun v => if 0 < v then v else 0)

/-- Collects a list of possibly-panicking reads; none as soon as one is none. -/
def collectSome : List (Option Value) → Option (List Value)
  | [] => some []
  | none :: _ => none
  | some v :: rest => (collectSome rest).map (fun l => v :: l)

/-- The whole values array of PrintHistogram, most-recent bucket first. -/
def histValues (w : TimeWindow) : Option (List Value) :=
  collectSome ((List.range w.size.toNat).map (histEntry w))

/-- The times array of PrintHistogram (line 181): -i * int(duration.Seconds()). -/
def histTimes (w : TimeWindow) : List ℤ :=
  (List.range w.size.toNat).map (fun (i : Nat) => -(i : ℤ) * durationSeconds w.duration)

/-- maxValue of PrintHistogram (lines 175-189): running maximum, starting at
0, over the entries of the values array. In the source the maximum is updated
inside the same collection loop, over exactly these entries. -/
def histMax (values : List Value) : Value :=
  values.foldl (fun m v => if m < v then v else m) 0

/-- One cell per bucket of one bar row (lines 200-206): a filled marker when
values[i] >= threshold, else a blank of the same width. -/
def barCells (values : List Value) (threshold : Value) : List String :=
  values.map (fun v => if threshold ≤ v then "▇ " else "  ")

/-- The bar rows of PrintHistogram (lines 198-208): h runs from height down
to 1, the threshold of a row is maxValue * h / height. -/
def barRows (values : List Value) (maxValue : Value) (height : ℤ) : String :=
  (List.range height.toNat).foldl
    (fun s k =>
      let h := height - (k : ℤ)
      s ++ String.join (barCells values (maxValue * (h : ℚ) / (height : ℚ))) ++ "\n")
    ""

/-- The separator line of PrintHistogram (lines 211-214). -/
def sepRow (size : ℤ) : String :=
  String.join ((List.range size.toNat).map (fun _ => "──")) ++ "\n"

/-- Rounding of Go fmt %.0f: nearest integer, ties to even. -/
def roundEven (q : ℚ) : ℤ :=
  let f := ⌊q⌋
  let frac := q - (f : ℚ)
  if frac < 1 / 2 then f
  else if 1 / 2 < frac then f + 1
  else if f % 2 = 0 then f else f + 1

/-- Go fmt with verb %-2.0f: the rounded value, left-justified to width 2. -/
def fmtF (q : ℚ) : String :=
  let s := toString (roundEven q)
  if s.length < 2 then s ++ " " else s

/-- Go fmt with verb %-2d. -/
def fmtD (n : ℤ) : String :=
  let s := toString n
  if s.length < 2 then s ++ " " else s

/-- The numeric value row of PrintHistogram (lines 217-224): the value printed
with %-2.0f when positive, blanks otherwise. -/
def valueRow (values : List Value) : String :=
  String.join (values.map (fun v => if 0 < v then fmtF v else "  ")) ++ "\n"

/-- The relative time row of PrintHistogram (lines 227-240): label every
bucket when size <= 20, else every (size/10)-th bucket. -/
def timeRow (size : ℤ) (times : List ℤ) : String :=
  let interval := if 20 < size then Int.tdiv size 10 else 1
  String.join (times.enum.map
    (fun p => if Int.tmod (p.1 : ℤ) interval = 0 then fmtD p.2 else "  ")) ++ "s\n"

/-- PrintHistogram (lines 158-243): rotates first, falls back to the default
option when opt is nil, returns the fixed message when maxValue is 0 and the
assembled chart otherwise. The returned window is the post-state. -/
def PrintHistogram (now : ℤ) (opt : Option HistogramOption) (w : TimeWindow) :
    Option (TimeWindow × String) := do
  let w ← rotate now w
  let o := opt.getD DefaultHistogramOption
  let values ← histValues w
  let times := histTimes w
  let maxValue := histMax values
  let height := o.Height
  if maxValue = 0 then
    pure (w, "No data available\n")
  else
    pure (w, "\nTime Window Histogram:\n\n" ++ barRows values maxValue height ++
      sepRow w.size ++ valueRow values ++ timeRow w.size times)

/-- LastUpdateTime (lines 246-250). -/
def LastUpdateTime (w : TimeWindow) : ℤ := w.lastUpdate

/-- TimeWindowData (lines 319-322). -/
structure TimeWindowData where
  time : ℤ
  values : List Value
deriving DecidableEq, Repr

/-- Collects a list of possibly-panicking data points. -/
def collectData : List (Option TimeWindowData) → Option (List TimeWindowData)
  | [] => some []
  | none :: _ => none
  | some v :: rest => (collectData rest).map (fun l => v :: l)

/-- GetData (lines 325-348): rotate at the first time.Now() call, then read
the buckets backward from the cursor; the second time.Now() call timestamps
the entries. Returns the post-state and the data. -/
def GetData (now1 now2 : ℤ) (w : TimeWindow) : Option (TimeWindow × List TimeWindowData) := do
  let w ← rotate now1 w
  let data ← collectData ((List.range w.size.toNat).map (fun (i : Nat) =>
    let idx := Int.tmod (w.cursor - (i : ℤ) + w.size) w.size
    (getBucket w.buckets idx).map (fun v =>
      { time := now2 - (i : ℤ) * w.duration, values := [v] })))
  pure (w, data)

/-- GetLatestValue (lines 351-356): the current bucket and the constant true. -/
def GetLatestValue (w : TimeWindow) : Option (Value × Bool) :=
  (getBucket w.buckets w.cursor).map (fun v => (v, true))

/-- The record shape Scan unmarshals into (lines 289-296). -/
structure ScanData where
  buckets : List Value
  size : ℤ
  duration : ℤ
  lastTime : ℤ
  cursor : ℤ
  lastUpdate : ℤ
deriving DecidableEq, Repr

/-- The dynamic argument of Scan: a nil driver value, a non-byte-slice value,
or a byte slice whose json.Unmarshal either fails (none) or yields a record. -/
inductive ScanValue where
  | nil
  | nonBytes
  | bytes (parsed : Option ScanData)
deriving DecidableEq, Repr

/-- Scan (lines 281-316). On nil input it returns immediately. On a non-byte
value it returns an error. When json.Unmarshal fails, the source assigns
5 * time.Minute to the Duration field of the LOCAL record and returns nil
without copying anything into the window, so the window is left untouched.
On success every field of the window is overwritten from the record, with no
validation of cursor, size or bucket count. -/
def Scan (w : TimeWindow) (value : ScanValue) : Except String TimeWindow :=
  match value with
  | .nil => .ok w
  | .nonBytes => .error "expected []byte"
  | .bytes none => .ok w
  | .bytes (some d) =>
    .ok { buckets := d.buckets
          size := d.size
          duration := d.duration
          lastTime := d.lastTime
          cursor := d.cursor
          lastUpdate := d.lastUpdate }

/-- Well-formedness of a window: the cursor is a valid index and the bucket
slice has exactly size entries. Established by the constructor for positive
size and preserved by every operation except Scan. -/
def WF (w : TimeWindow) : Prop :=
  0 ≤ w.cursor ∧ w.cursor < w.size ∧ (w.buckets.length : ℤ) = w.size

instance (w : TimeWindow) : Decidable (WF w) := by
  unfold WF
  infer_instance

/-- Specification-side single rotation step, following the words of the spec:
advance the cursor one position modulo size and zero the newly occupied
bucket. Used to state claim C1 and compared against rotateLoop. -/
def specStep (size : ℤ) (p : ℤ × List Value) : ℤ × List Value :=
  let c := (p.1 + 1) % size
  (c, p.2.set c.toNat 0)

/-! Helper lemmas about slice access. -/

theorem setBucket_some {l : List Value} {i : ℤ} (v : Value)
    (h0 : 0 ≤ i) (h1 : i < (l.length : ℤ)) :
    setBucket l i v = some (l.set i.toNat v) := by
  unfold setBucket
  exact if_pos ⟨h0, h1⟩

theorem setBucket_eq_some {l b : List Value} {i : ℤ} {v : Value}
    (h : setBucket l i v = some b) :
    0 ≤ i ∧ i < (l.length : ℤ) ∧ b = l.set i.toNat v := by
  unfold setBucket at h
  split at h
  · next hc => exact ⟨hc.1, hc.2, (Option.some.inj h).symm⟩
  · exact absurd h (by simp)

theorem getBucket_some {l : List Value} {i : ℤ}
    (h0 : 0 ≤ i) (h1 : i < (l.length : ℤ)) :
    getBucket l i = some (l.getD i.toNat 0) := by
  unfold getBucket
  rw [if_pos h0]
  have hlt : i.toNat < l.length := (Int.toNat_lt h0).mpr h1
  rw [List.getD_eq_get? ]
  rw [List.get?_eq_get hlt]
  rfl

/-! Helper lemmas bridging Go truncated division with floor division. For a
positive divisor and the sign tests the source makes, the two agree. -/

theorem ediv_nonpos_iff_lt {n d : ℤ} (hd : 0 < d) : n / d ≤ 0 ↔ n < d := by
  constructor
  · intro h
    by_contra hlt
    push_neg at hlt
    have : 1 ≤ n / d := (Int.le_ediv_iff_mul_le hd).mpr (by omega)
    omega
  · intro h
    by_contra hpos
    push_neg at hpos
    have : 1 * d ≤ n := (Int.le_ediv_iff_mul_le hd).mp (by omega)
    omega

theorem tdiv_nonpos_of_nonpos {n d : ℤ} (hn : n ≤ 0) (hd : 0 ≤ d) : Int.tdiv n d ≤ 0 := by
  have h1 : 0 ≤ Int.tdiv (-n) d := Int.tdiv_nonneg (by omega) hd
  have h2 : Int.tdiv (-n) d = -(Int.tdiv n d) := by
    rw [Int.neg_tdiv]
  omega

theorem tdiv_nonpos_iff_lt {n d : ℤ} (hd : 0 < d) : Int.tdiv n d ≤ 0 ↔ n < d := by
  rcases le_or_lt 0 n with hn | hn
  · rw [Int.tdiv_eq_ediv hn hd.le]
    exact ediv_nonpos_iff_lt hd
  · constructor
    · intro _; omega
    · intro _; exact tdiv_nonpos_of_nonpos hn.le hd.le

theorem ediv_pos_imp_le {n d : ℤ} (hd : 0 < d) (h : 0 < n / d) : d ≤ n := by
  have := (Int.le_ediv_iff_mul_le hd).mp (by omega : 1 ≤ n / d)
  omega

theorem tdiv_eq_ediv_of_ediv_pos {n d : ℤ} (hd : 0 < d) (h : 0 < n / d) :
    Int.tdiv n d = n / d :=
  Int.tdiv_eq_ediv (le_trans hd.le (ediv_pos_imp_le hd h)) hd.le

/-! Helper lemmas about the rotation step and loop. -/

theorem specStep_inv {size c : ℤ} {l : List Value} (hs : 0 < size)
    (hl : (l.length : ℤ) = size) :
    0 ≤ (specStep size (c, l)).1 ∧ (specStep size (c, l)).1 < size ∧
      (((specStep size (c, l)).2).length : ℤ) = size := by
  refine ⟨Int.emod_nonneg _ (by omega), Int.emod_lt_of_pos _ hs, ?_⟩
  show (((l.set (((c + 1) % size).toNat) 0)).length : ℤ) = size
  rw [List.length_set]
  exact hl

theorem specStep_iterate_inv {size : ℤ} (hs : 0 < size) (n : Nat) :
    ∀ p : ℤ × List Value, 0 ≤ p.1 → p.1 < size → ((p.2).length : ℤ) = size →
      0 ≤ ((specStep size)^[n] p).1 ∧ ((specStep size)^[n] p).1 < size ∧
        ((((specStep size)^[n] p).2).length : ℤ) = size := by
  induction n with
  | zero => intro p h0 h1 h2; exact ⟨h0, h1, h2⟩
  | succ n ih =>
    intro p h0 h1 h2
    rw [Function.iterate_succ_apply]
    obtain ⟨a0, a1, a2⟩ := specStep_inv (c := p.1) hs h2
    exact ih (specStep size p) a0 a1 a2

theorem rotateLoop_eq {size : ℤ} (n : Nat) :
    ∀ (c : ℤ) (l : List Value), 0 ≤ c → c < size → (l.length : ℤ) = size →
      rotateLoop size n c l = some ((specStep size)^[n] (c, l)) := by
  induction n with
  | zero => intro c l _ _ _; rfl
  | succ n ih =>
    intro c l h0 h1 h2
    have hs : 0 < size := by omega
    have hmod : Int.tmod (c + 1) size = (c + 1) % size :=
      Int.tmod_eq_emod (by omega) hs.le
    have hc0 : 0 ≤ (c + 1) % size := Int.emod_nonneg _ (by omega)
    have hc1 : (c + 1) % size < size := Int.emod_lt_of_pos _ hs
    have hset : setBucket l ((c + 1) % size) 0 =
        some (l.set ((c + 1) % size).toNat 0) :=
      setBucket_some 0 hc0 (by omega)
    show (match setBucket l (Int.tmod (c + 1) size) 0 with
      | none => none
      | some b => rotateLoop size n (Int.tmod (c + 1) size) b) =
        some ((specStep size)^[n + 1] (c, l))
    rw [hmod, hset]
    rw [Function.iterate_succ_apply]
    have hstep : specStep size (c, l) = ((c + 1) % size, l.set ((c + 1) % size).toNat 0) := rfl
    rw [hstep]
    exact ih _ _ hc0 hc1 (by rw [List.length_set]; exact h2)

theorem rotateLoop_wf {size : ℤ} {n : Nat} {c : ℤ} {l : List Value}
    (h0 : 0 ≤ c) (h1 : c < size) (h2 : (l.length : ℤ) = size) :
    ∃ c' l', rotateLoop size n c l = some (c', l') ∧
      0 ≤ c' ∧ c' < size ∧ ((l'.length : ℤ) = size) := by
  rw [rotateLoop_eq n c l h0 h1 h2]
  obtain ⟨a0, a1, a2⟩ := specStep_iterate_inv (by omega) n (c, l) h0 h1 h2
  exact ⟨_, _, rfl, a0, a1, a2⟩

/-! Helper lemmas about rotate. -/

theorem rotate_some_frame {now : ℤ} {w w' : TimeWindow} (h : rotate now w = some w') :
    w'.duration = w.duration ∧ w'.lastUpdate = w.lastUpdate ∧ w'.size = w.size := by
  simp only [rotate] at h
  split at h
  · exact absurd h (by simp)
  · split at h
    · rw [Option.some.injEq] at h
      subst h; exact ⟨rfl, rfl, rfl⟩
    · split at h
      · rw [Option.some.injEq] at h
        subst h; exact ⟨rfl, rfl, rfl⟩
      · split at h
        · exact absurd h (by simp)
        · rw [Option.some.injEq] at h
          subst h; exact ⟨rfl, rfl, rfl⟩

theorem rotate_total (now : ℤ) {w : TimeWindow} (hWF : WF w) (hd : w.duration ≠ 0) :
    ∃ w', rotate now w = some w' ∧ WF w' := by
  obtain ⟨h0, h1, h2⟩ := hWF
  unfold rotate
  rw [if_neg hd]
  by_cases hp : Int.tdiv (now - w.lastTime) w.duration ≤ 0
  · rw [if_pos hp]
    exact ⟨w, rfl, h0, h1, h2⟩
  · rw [if_neg hp]
    by_cases hps : w.size ≤ Int.tdiv (now - w.lastTime) w.duration
    · rw [if_pos hps]
      refine ⟨_, rfl, le_refl 0, show (0 : ℤ) < w.size by omega, ?_⟩
      show ((w.buckets.map (fun _ => (0 : Value))).length : ℤ) = w.size
      rw [List.length_map]
      exact h2
    · rw [if_neg hps]
      obtain ⟨c', l', heq, a0, a1, a2⟩ := rotateLoop_wf
        (n := (Int.tdiv (now - w.lastTime) w.duration).toNat) h0 h1 h2
      rw [heq]
      exact ⟨_, rfl, a0, a1, a2⟩

theorem rotate_some_wf {now : ℤ} {w w' : TimeWindow}
    (hWF : WF w) (h : rotate now w = some w') : WF w' := by
  have hd : w.duration ≠ 0 := by
    intro h0
    unfold rotate at h
    rw [if_pos h0] at h
    exact absurd h (by simp)
  obtain ⟨w'', h2, h3⟩ := rotate_total now hWF hd
  rw [h2, Option.some.injEq] at h
  subst h
  exact h3

/-! Helper lemmas about the write operations. -/

theorem Append_some_iff {now : ℤ} {v : Value} {w w' : TimeWindow} :
    Append now v w = some w' ↔ ∃ w1 b, rotate now w = some w1 ∧
      setBucket w1.buckets w1.cursor v = some b ∧ w' = { w1 with buckets := b } := by
  simp only [Append, Option.bind_eq_bind, Option.bind_eq_some, Option.pure_def,
    Option.some.injEq]
  constructor
  · rintro ⟨w1, h1, b, h2, h3⟩
    exact ⟨w1, b, h1, h2, h3.symm⟩
  · rintro ⟨w1, b, h1, h2, h3⟩
    exact ⟨w1, h1, b, h2, h3.symm⟩

theorem Inc_some_iff {now : ℤ} {d : Value} {w w' : TimeWindow} :
    Inc now d w = some w' ↔ ∃ w1 v b, rotate now w = some w1 ∧
      getBucket w1.buckets w1.cursor = some v ∧
      setBucket w1.buckets w1.cursor (v + d) = some b ∧
      w' = { w1 with lastUpdate := now, buckets := b } := by
  simp only [Inc, Option.bind_eq_bind, Option.bind_eq_some, Option.pure_def,
    Option.some.injEq]
  constructor
  · rintro ⟨w1, h1, v, h2, b, h3, h4⟩
    exact ⟨w1, v, b, h1, h2, h3, h4.symm⟩
  · rintro ⟨w1, v, b, h1, h2, h3, h4⟩
    exact ⟨w1, h1, v, h2, b, h3, h4.symm⟩

theorem Dec_some_iff {now : ℤ} {d : Value} {w w' : TimeWindow} :
    Dec now d w = some w' ↔ ∃ w1 v b, rotate now w = some w1 ∧
      getBucket w1.buckets w1.cursor = some v ∧
      setBucket w1.buckets w1.cursor (v - d) = some b ∧
      w' = { w1 with lastUpdate := now, buckets := b } := by
  simp only [Dec, Option.bind_eq_bind, Option.bind_eq_some, Option.pure_def,
    Option.some.injEq]
  constructor
  · rintro ⟨w1, h1, v, h2, b, h3, h4⟩
    exact ⟨w1, v, b, h1, h2, h3, h4.symm⟩
  · rintro ⟨w1, v, b, h1, h2, h3, h4⟩
    exact ⟨w1, h1, v, h2, b, h3, h4.symm⟩

theorem Reset_eq_Append (now : ℤ) (v : Value) (w : TimeWindow) :
    Reset now v w = Append now v w := rfl

theorem Append_some_wf {now : ℤ} {v : Value} {w w' : TimeWindow}
    (hWF : WF w) (h : Append now v w = some w') : WF w' := by
  obtain ⟨w1, b, h1, h2, h3⟩ := Append_some_iff.mp h
  obtain ⟨a0, a1, a2⟩ := rotate_some_wf hWF h1
  obtain ⟨-, -, hb⟩ := setBucket_eq_some h2
  subst h3
  subst hb
  refine ⟨a0, a1, ?_⟩
  show ((w1.buckets.set w1.cursor.toNat v).length : ℤ) = w1.size
  rw [List.length_set]
  exact a2

theorem Append_total (now : ℤ) (v : Value) {w : TimeWindow}
    (hWF : WF w) (hd : w.duration ≠ 0) : ∃ w', Append now v w = some w' := by
  obtain ⟨w1, h1, b0, b1, b2⟩ := rotate_total now hWF hd
  have hs := setBucket_some (l := w1.buckets) (i := w1.cursor) v b0 (by omega)
  exact ⟨_, Append_some_iff.mpr ⟨w1, _, h1, hs, rfl⟩⟩

theorem Inc_some_wf {now : ℤ} {d : Value} {w w' : TimeWindow}
    (hWF : WF w) (h : Inc now d w = some w') : WF w' := by
  obtain ⟨w1, v, b, h1, h2, h3, h4⟩ := Inc_some_iff.mp h
  obtain ⟨a0, a1, a2⟩ := rotate_some_wf hWF h1
  obtain ⟨-, -, hb⟩ := setBucket_eq_some h3
  subst h4
  subst hb
  refine ⟨a0, a1, ?_⟩
  show ((w1.buckets.set w1.cursor.toNat (v + d)).length : ℤ) = w1.size
  rw [List.length_set]
  exact a2

theorem Inc_total (now : ℤ) (d : Value) {w : TimeWindow}
    (hWF : WF w) (hd : w.duration ≠ 0) : ∃ w', Inc now d w = some w' := by
  obtain ⟨w1, h1, b0, b1, b2⟩ := rotate_total now hWF hd
  have hg := getBucket_some (l := w1.buckets) (i := w1.cursor) b0 (by omega)
  have hs := setBucket_some (l := w1.buckets) (i := w1.cursor)
    (w1.buckets.getD w1.cursor.toNat 0 + d) b0 (by omega)
  exact ⟨_, Inc_some_iff.mpr ⟨w1, _, _, h1, hg, hs, rfl⟩⟩

theorem Dec_some_wf {now : ℤ} {d : Value} {w w' : TimeWindow}
    (hWF : WF w) (h : Dec now d w = some w') : WF w' := by
  obtain ⟨w1, v, b, h1, h2, h3, h4⟩ := Dec_some_iff.mp h
  obtain ⟨a0, a1, a2⟩ := rotate_some_wf hWF h1
  obtain ⟨-, -, hb⟩ := setBucket_eq_some h3
  subst h4
  subst hb
  refine ⟨a0, a1, ?_⟩
  show ((w1.buckets.set w1.cursor.toNat (v - d)).length : ℤ) = w1.size
  rw [List.length_set]
  exact a2

theorem Dec_total (now : ℤ) (d : Value) {w : TimeWindow}
    (hWF : WF w) (hd : w.duration ≠ 0) : ∃ w', Dec now d w = some w' := by
  obtain ⟨w1, h1, b0, b1, b2⟩ := rotate_total now hWF hd
  have hg := getBucket_some (l := w1.buckets) (i := w1.cursor) b0 (by omega)
  have hs := setBucket_some (l := w1.buckets) (i := w1.cursor)
    (w1.buckets.getD w1.cursor.toNat 0 - d) b0 (by omega)
  exact ⟨_, Dec_some_iff.mpr ⟨w1, _, _, h1, hg, hs, rfl⟩⟩

/-! Helper lemmas about the histogram value collection. -/

/-- The bucket value the histogram and GetData loops read at offset i from the
cursor, most recent first: the source index expression with the Go modulo
written as the mathematical one, which agrees because the dividend is
positive on well-formed windows. -/
def bucketAt (w : TimeWindow) (i : Nat) : Value :=
  w.buckets.getD ((w.cursor - (i : ℤ) + w.size) % w.size).toNat 0

theorem idx_nonneg_lt {w : TimeWindow} (hWF : WF w) {i : Nat} (hi : (i : ℤ) < w.size) :
    0 < w.cursor - (i : ℤ) + w.size ∧
      Int.tmod (w.cursor - (i : ℤ) + w.size) w.size =
        (w.cursor - (i : ℤ) + w.size) % w.size ∧
      0 ≤ (w.cursor - (i : ℤ) + w.size) % w.size ∧
      (w.cursor - (i : ℤ) + w.size) % w.size < w.size := by
  obtain ⟨h0, h1, h2⟩ := hWF
  have hpos : 0 < w.cursor - (i : ℤ) + w.size := by omega
  exact ⟨hpos, Int.tmod_eq_emod hpos.le (by omega),
    Int.emod_nonneg _ (by omega), Int.emod_lt_of_pos _ (by omega)⟩

theorem histEntry_some {w : TimeWindow} (hWF : WF w) {i : Nat} (hi : (i : ℤ) < w.size) :
    histEntry w i = some (if 0 < bucketAt w i then bucketAt w i else 0) := by
  obtain ⟨hpos, hmod, hm0, hm1⟩ := idx_nonneg_lt hWF hi
  obtain ⟨h0, h1, h2⟩ := hWF
  unfold histEntry
  rw [hmod]
  show Option.map (fun v => if 0 < v then v else 0)
    (getBucket w.buckets ((w.cursor - (i : ℤ) + w.size) % w.size)) = _
  rw [getBucket_some hm0 (by omega)]
  rfl

theorem collectSome_congr_map {ns : List Nat} {f : Nat → Option Value} {g : Nat → Value}
    (h : ∀ i ∈ ns, f i = some (g i)) :
    collectSome (ns.map f) = some (ns.map g) := by
  induction ns with
  | nil => rfl
  | cons a as ih =>
    rw [List.map_cons, List.map_cons, h a (by simp), collectSome,
      ih (fun i hi => h i (List.mem_cons_of_mem a hi))]
    rfl

theorem histValues_eq {w : TimeWindow} (hWF : WF w) :
    histValues w = some ((List.range w.size.toNat).map
      (fun i => if 0 < bucketAt w i then bucketAt w i else 0)) := by
  unfold histValues
  refine collectSome_congr_map (fun i hi => ?_)
  have hi2 : (i : ℤ) < w.size := by
    have := List.mem_range.mp hi
    have hs : 0 < w.size := by
      obtain ⟨a, b, -⟩ := hWF
      omega
    omega
  exact histEntry_some hWF hi2

theorem bucketAt_mem {w : TimeWindow} (hWF : WF w) {i : Nat} (hi : (i : ℤ) < w.size) :
    bucketAt w i ∈ w.buckets := by
  obtain ⟨hpos, hmod, hm0, hm1⟩ := idx_nonneg_lt hWF hi
  obtain ⟨h0, h1, h2⟩ := hWF
  unfold bucketAt
  have hlt : ((w.cursor - (i : ℤ) + w.size) % w.size).toNat < w.buckets.length :=
    (Int.toNat_lt hm0).mpr (by omega)
  rw [List.getD_eq_get?, List.get?_eq_get hlt]
  exact List.get_mem _ _ _

theorem mem_bucketAt {w : TimeWindow} (hWF : WF w) {v : Value} (hv : v ∈ w.buckets) :
    ∃ i : Nat, (i : ℤ) < w.size ∧ bucketAt w i = v := by
  obtain ⟨h0, h1, h2⟩ := hWF
  have hs : 0 < w.size := by omega
  obtain ⟨⟨j, hj⟩, hget⟩ := List.mem_iff_get.mp hv
  have hj2 : (j : ℤ) < w.size := by omega
  have hiz0 : 0 ≤ (w.cursor - (j : ℤ)) % w.size := Int.emod_nonneg _ (by omega)
  have hiz1 : (w.cursor - (j : ℤ)) % w.size < w.size := Int.emod_lt_of_pos _ hs
  refine ⟨((w.cursor - (j : ℤ)) % w.size).toNat, by omega, ?_⟩
  unfold bucketAt
  have hcast : (((w.cursor - (j : ℤ)) % w.size).toNat : ℤ) =
      (w.cursor - (j : ℤ)) % w.size := Int.toNat_of_nonneg hiz0
  have hidx : (w.cursor - ((w.cursor - (j : ℤ)) % w.size) + w.size) % w.size = (j : ℤ) := by
    have e1 : w.cursor - ((w.cursor - (j : ℤ)) % w.size) + w.size =
        w.cursor - ((w.cursor - (j : ℤ)) % w.size) + w.size * 1 := by ring
    rw [e1, Int.add_mul_emod_self_left]
    calc (w.cursor - (w.cursor - (j : ℤ)) % w.size) % w.size
        = (w.cursor % w.size - ((w.cursor - (j : ℤ)) % w.size) % w.size) % w.size :=
          Int.sub_emod _ _ _
      _ = (w.cursor % w.size - (w.cursor - (j : ℤ)) % w.size) % w.size := by
          rw [Int.emod_emod_of_dvd _ dvd_rfl]
      _ = (w.cursor - (w.cursor - (j : ℤ))) % w.size := (Int.sub_emod _ _ _).symm
      _ = (j : ℤ) % w.size := by ring_nf
      _ = (j : ℤ) := Int.emod_eq_of_lt (by omega) hj2
  rw [hcast, hidx]
  have hjl : j < w.buckets.length := by omega
  rw [show ((j : ℤ)).toNat = j from rfl, List.getD_eq_get?, List.get?_eq_get hjl]
  exact hget

/-! Helper lemmas about the running maximum. -/

theorem histMax_eq_foldl_max (l : List Value) : histMax l = l.foldl max 0 := by
  unfold histMax
  congr 1
  funext m v
  rcases le_or_lt v m with h | h
  · rw [if_neg (not_lt.mpr h), max_eq_left h]
  · rw [if_pos h, max_eq_right h.le]

theorem le_foldl_max (l : List Value) (b : Value) : b ≤ l.foldl max b := by
  induction l generalizing b with
  | nil => exact le_refl b
  | cons x xs ih => exact le_trans (le_max_left b x) (ih (max b x))

theorem mem_le_foldl_max {l : List Value} {a : Value} (b : Value) (ha : a ∈ l) :
    a ≤ l.foldl max b := by
  induction l generalizing b with
  | nil => cases ha
  | cons x xs ih =>
    rcases List.mem_cons.mp ha with h | h
    · subst h
      exact le_trans (le_max_right b a) (le_foldl_max xs (max b a))
    · exact ih (max b x) h

theorem foldl_max_le {l : List Value} {m : Value} (b : Value) (hb : b ≤ m)
    (h : ∀ a ∈ l, a ≤ m) : l.foldl max b ≤ m := by
  induction l generalizing b with
  | nil => exact hb
  | cons x xs ih =>
    exact ih _ (max_le hb (h x (List.mem_cons_self x xs)))
      (fun a ha => h a (List.mem_cons_of_mem x ha))

theorem foldl_max_eq_init_or_mem (l : List Value) (b : Value) :
    l.foldl max b = b ∨ l.foldl max b ∈ l := by
  induction l generalizing b with
  | nil => exact Or.inl rfl
  | cons x xs ih =>
    rcases ih (max b x) with h | h
    · rcases max_choice b x with hc | hc
      · exact Or.inl (by rw [List.foldl_cons, h, hc])
      · exact Or.inr (by rw [List.foldl_cons, h, hc]; exact List.mem_cons_self x xs)
    · exact Or.inr (List.mem_cons_of_mem x h)

/-! Helper lemmas about PrintHistogram and GetData. -/

theorem PrintHistogram_eq {now : ℤ} {opt : Option HistogramOption} {w w' : TimeWindow}
    {vals : List Value} (hr : rotate now w = some w') (hv : histValues w' = some vals) :
    PrintHistogram now opt w = some (w',
      if histMax vals = 0 then "No data available\n"
      else "\nTime Window Histogram:\n\n" ++
        barRows vals (histMax vals) (opt.getD DefaultHistogramOption).Height ++
        sepRow w'.size ++ valueRow vals ++ timeRow w'.size (histTimes w')) := by
  unfold PrintHistogram
  rw [hr]
  simp only [Option.bind_eq_bind, Option.some_bind]
  rw [hv]
  simp only [Option.some_bind]
  by_cases h : histMax vals = 0
  · rw [if_pos h, if_pos h]
    rfl
  · rw [if_neg h, if_neg h]
    rfl

theorem PrintHistogram_some_fst {now : ℤ} {opt : Option HistogramOption}
    {w : TimeWindow} {q : TimeWindow × String}
    (h : PrintHistogram now opt w = some q) : rotate now w = some q.1 := by
  simp only [PrintHistogram, Option.bind_eq_bind, Option.bind_eq_some,
    Option.pure_def] at h
  obtain ⟨w1, h1, vals, h2, h3⟩ := h
  split at h3
  · rw [Option.some.injEq] at h3
    rw [← h3]
    exact h1
  · rw [Option.some.injEq] at h3
    rw [← h3]
    exact h1

theorem collectData_congr_map {ns : List Nat} {f : Nat → Option TimeWindowData}
    {g : Nat → TimeWindowData} (h : ∀ i ∈ ns, f i = some (g i)) :
    collectData (ns.map f) = some (ns.map g) := by
  induction ns with
  | nil => rfl
  | cons a as ih =>
    rw [List.map_cons, List.map_cons, h a (by simp), collectData,
      ih (fun i hi => h i (List.mem_cons_of_mem a hi))]
    rfl

theorem GetData_eq {now1 now2 : ℤ} {w w' : TimeWindow}
    (hr : rotate now1 w = some w') (hwf : WF w') :
    GetData now1 now2 w = some (w', (List.range w'.size.toNat).map
      (fun i => { time := now2 - (i : ℤ) * w'.duration, values := [bucketAt w' i] })) := by
  unfold GetData
  rw [hr]
  simp only [Option.bind_eq_bind, Option.some_bind]
  have hc : collectData ((List.range w'.size.toNat).map (fun (i : Nat) =>
      Option.map (fun v => { time := now2 - (i : ℤ) * w'.duration, values := [v] })
        (getBucket w'.buckets (Int.tmod (w'.cursor - (i : ℤ) + w'.size) w'.size)))) =
      some ((List.range w'.size.toNat).map
        (fun (i : Nat) =>
          { time := now2 - (i : ℤ) * w'.duration, values := [bucketAt w' i] })) := by
    refine collectData_congr_map (fun i hi => ?_)
    have hi2 : (i : ℤ) < w'.size := by
      have := List.mem_range.mp hi
      obtain ⟨a, b, -⟩ := hwf
      omega
    obtain ⟨hpos, hmod, hm0, hm1⟩ := idx_nonneg_lt hwf hi2
    obtain ⟨h0, h1, h2⟩ := hwf
    rw [hmod, getBucket_some hm0 (by omega)]
    rfl
  rw [hc]
  rfl

theorem GetData_some_fst {now1 now2 : ℤ} {w : TimeWindow}
    {p : TimeWindow × List TimeWindowData}
    (h : GetData now1 now2 w = some p) : rotate now1 w = some p.1 := by
  simp only [GetData, Option.bind_eq_bind, Option.bind_eq_some,
    Option.pure_def, Option.some.injEq] at h
  obtain ⟨w1, h1, d, h2, h3⟩ := h
  rw [← h3]
  exact h1

/-! Helper lemmas about strings and the fold forms of Sum and Count. -/

theorem chart_ne_empty (a b c d : String) :
    "\nTime Window Histogram:\n\n" ++ a ++ b ++ c ++ d ≠ "" := by
  intro h
  have h2 := congrArg String.length h
  rw [String.length_append, String.length_append, String.length_append,
    String.length_append] at h2
  have h3 : 0 < ("\nTime Window Histogram:\n\n" : String).length := by decide
  have h4 : ("" : String).length = 0 := rfl
  omega

theorem chart_ne_msg (a b c d : String) :
    "\nTime Window Histogram:\n\n" ++ a ++ b ++ c ++ d ≠ "No data available\n" := by
  intro h
  have h2 := congrArg String.data h
  rw [String.data_append, String.data_append, String.data_append,
    String.data_append] at h2
  have h3 : ("\nTime Window Histogram:\n\n" : String).data =
      '\n' :: ("Time Window Histogram:\n\n" : String).data := rfl
  have h4 : ("No data available\n" : String).data =
      'N' :: ("o data available\n" : String).data := rfl
  rw [h3, h4, List.cons_append, List.cons_append, List.cons_append,
    List.cons_append] at h2
  have h5 := List.head_eq_of_cons_eq h2
  exact absurd h5 (by decide)

theorem count_foldl (l : List Value) : ∀ n : ℤ,
    l.foldl (fun n v => if v ≠ 0 then n + 1 else n) n =
      n + ((l.filter (fun v => v != 0)).length : ℤ) := by
  induction l with
  | nil => intro n; simp
  | cons x xs ih =>
    intro n
    by_cases hx : x = 0
    · rw [List.foldl_cons, if_neg (by simp [hx]),
        List.filter_cons_of_neg (by simp [hx]), ih]
    · rw [List.foldl_cons, if_pos hx, List.filter_cons_of_pos (by simp [hx]), ih]
      rw [List.length_cons]
      push_cast
      ring

theorem sum_foldl (l : List Value) : ∀ b : Value,
    l.foldl (fun s v => s + v) b = b + l.sum := by
  induction l with
  | nil => intro b; simp
  | cons x xs ih =>
    intro b
    rw [List.foldl_cons, ih, List.sum_cons]
    ring

theorem rotate_unfold (now : ℤ) (w : TimeWindow) (hdne : w.duration ≠ 0) :
    rotate now w =
      if Int.tdiv (now - w.lastTime) w.duration ≤ 0 then some w
      else if w.size ≤ Int.tdiv (now - w.lastTime) w.duration then
        some { w with buckets := w.buckets.map (fun _ => 0), cursor := 0, lastTime := now }
      else
        match rotateLoop w.size (Int.tdiv (now - w.lastTime) w.duration).toNat
            w.cursor w.buckets with
        | none => none
        | some (c, b) => some { w with cursor := c, buckets := b, lastTime := now } := by
  unfold rotate
  rw [if_neg hdne]

/-- Claim C1: for every well-formed window and every now, with elapsedBuckets
the floor of (now - lastRotateTime) / bucketDuration, (a) when elapsedBuckets
is at most 0 the state is unchanged; (b) when elapsedBuckets is at least size
every bucket is zeroed and the cursor is reset to 0; (c) otherwise the cursor
advances one position modulo size exactly elapsedBuckets times, zeroing each
newly occupied bucket; in cases (b) and (c) lastRotateTime becomes now. For a
positive duration, the floor division coincides with the euclidean division
written here. -/
theorem rotate_three_case_spec (w : TimeWindow) (now : ℤ)
    (hWF : WF w) (hd : 0 < w.duration) :
    ((now - w.lastTime) / w.duration ≤ 0 → rotate now w = some w) ∧
    (w.size ≤ (now - w.lastTime) / w.duration →
      rotate now w = some { w with
        buckets := List.replicate w.buckets.length 0,
        cursor := 0,
        lastTime := now }) ∧
    (0 < (now - w.lastTime) / w.duration → (now - w.lastTime) / w.duration < w.size →
      rotate now w = some { w with
        cursor := ((specStep w.size)^[((now - w.lastTime) / w.duration).toNat]
          (w.cursor, w.buckets)).1,
        buckets := ((specStep w.size)^[((now - w.lastTime) / w.duration).toNat]
          (w.cursor, w.buckets)).2,
        lastTime := now }) := by
  obtain ⟨h0, h1, h2⟩ := hWF
  have hdne : w.duration ≠ 0 := by omega
  refine ⟨?_, ?_, ?_⟩
  · intro he
    have hp : Int.tdiv (now - w.lastTime) w.duration ≤ 0 :=
      (tdiv_nonpos_iff_lt hd).mpr ((ediv_nonpos_iff_lt hd).mp he)
    rw [rotate_unfold now w hdne, if_pos hp]
  · intro he
    have hepos : 0 < (now - w.lastTime) / w.duration :=
      lt_of_lt_of_le (by omega : (0 : ℤ) < w.size) he
    have heq : Int.tdiv (now - w.lastTime) w.duration = (now - w.lastTime) / w.duration :=
      tdiv_eq_ediv_of_ediv_pos hd hepos
    rw [rotate_unfold now w hdne, heq, if_neg (not_le.mpr hepos), if_pos he,
      List.map_const']
  · intro hgt hlt
    have heq : Int.tdiv (now - w.lastTime) w.duration = (now - w.lastTime) / w.duration :=
      tdiv_eq_ediv_of_ediv_pos hd hgt
    rw [rotate_unfold now w hdne, heq, if_neg (not_le.mpr hgt), if_neg (not_le.mpr hlt),
      rotateLoop_eq _ _ _ h0 h1 h2]

/-- Witness for claim C1: the three cases of the rotation spec evaluated on a
concrete window of size 3 with bucket duration 10, at a time before one
bucket has elapsed, after the whole window went stale, and after a partial
two-bucket advance. -/
theorem rotate_three_case_spec_witness :
    rotate 5 (⟨[1, 2, 3], 3, 10, 0, 1, 0⟩ : TimeWindow) =
      some (⟨[1, 2, 3], 3, 10, 0, 1, 0⟩ : TimeWindow) ∧
    rotate 100 (⟨[1, 2, 3], 3, 10, 0, 1, 0⟩ : TimeWindow) =
      some (⟨[0, 0, 0], 3, 10, 100, 0, 0⟩ : TimeWindow) ∧
    rotate 25 (⟨[1, 2, 3], 3, 10, 0, 1, 0⟩ : TimeWindow) =
      some (⟨[0, 2, 0], 3, 10, 25, 0, 0⟩ : TimeWindow) := by
  refine ⟨?_, ?_, ?_⟩
  · exact (rotate_three_case_spec (⟨[1, 2, 3], 3, 10, 0, 1, 0⟩ : TimeWindow) 5
      (by decide) (by decide)).1 (by decide)
  · exact (rotate_three_case_spec (⟨[1, 2, 3], 3, 10, 0, 1, 0⟩ : TimeWindow) 100
      (by decide) (by decide)).2.1 (by decide)
  · exact (rotate_three_case_spec (⟨[1, 2, 3], 3, 10, 0, 1, 0⟩ : TimeWindow) 25
      (by decide) (by decide)).2.2 (by decide) (by decide)

/-- Claim C7: Avg equals Sum divided by Count when Count is non-zero and 0
otherwise, where Count is the number of buckets holding a non-zero value and
Sum is the sum of all bucket values. -/
theorem avg_sum_count_spec (w : TimeWindow) :
    Avg w = (if Count w = 0 then 0 else Sum w / (Count w : ℚ)) ∧
    Count w = ((w.buckets.filter (fun v => v != 0)).length : ℤ) ∧
    Sum w = w.buckets.sum := by
  refine ⟨rfl, ?_, ?_⟩
  · show w.buckets.foldl (fun n v => if v ≠ 0 then n + 1 else n) 0 = _
    rw [count_foldl]
    ring
  · show w.buckets.foldl (fun s v => s + v) 0 = _
    rw [sum_foldl]
    ring

/-- Claim C9: Reset and Append are the same state transformer: both rotate
and then overwrite the current bucket, leaving every other field unchanged.
The two source bodies are line-for-line identical. -/
theorem reset_equals_append : ∀ (now : ℤ) (v : Value) (w : TimeWindow),
    Reset now v w = Append now v w :=
  fun _ _ _ => rfl

/-- Claim C10: Scan with a nil input value returns success and leaves every
field of the window unchanged; the source returns before touching the
receiver. -/
theorem scan_nil_noop : ∀ w : TimeWindow, Scan w ScanValue.nil = Except.ok w :=
  fun _ => rfl

/-- Counterexample to claim C4: on malformed bytes, Scan returns success but
does NOT set the duration of the window to the conventional default of five
minutes (300000000000 ns); the source assigns the default to a local record
that is then discarded, so the duration stays at its old value, here 7. -/
theorem scan_malformed_duration_cex :
    Scan (⟨[1], 1, 7, 0, 0, 0⟩ : TimeWindow) (ScanValue.bytes none) =
      Except.ok (⟨[1], 1, 7, 0, 0, 0⟩ : TimeWindow) ∧
    (⟨[1], 1, 7, 0, 0, 0⟩ : TimeWindow).duration = 7 ∧
    ¬ (⟨[1], 1, 7, 0, 0, 0⟩ : TimeWindow).duration = 300000000000 :=
  ⟨rfl, rfl, by decide⟩

/-- Claim C4 (amended): for every window state and every malformed
deserialization input, Scan returns without surfacing an error and leaves
EVERY field of the window, the duration included, exactly as it already was;
the default-duration assignment in the source only writes a local that is
discarded. -/
theorem scan_malformed_preserves_state : ∀ w : TimeWindow,
    Scan w (ScanValue.bytes none) = Except.ok w :=
  fun _ => rfl

/-- Claim C8: Append and Reset leave lastUpdateTime unchanged, Inc and Dec
set it to the current time of the operation, and no other operation (rotate,
GetData, PrintHistogram) modifies it. -/
theorem lastUpdate_discipline :
    (∀ (now : ℤ) (v : Value) (w w' : TimeWindow),
      Append now v w = some w' → w'.lastUpdate = w.lastUpdate) ∧
    (∀ (now : ℤ) (v : Value) (w w' : TimeWindow),
      Reset now v w = some w' → w'.lastUpdate = w.lastUpdate) ∧
    (∀ (now : ℤ) (d : Value) (w w' : TimeWindow),
      Inc now d w = some w' → w'.lastUpdate = now) ∧
    (∀ (now : ℤ) (d : Value) (w w' : TimeWindow),
      Dec now d w = some w' → w'.lastUpdate = now) ∧
    (∀ (now : ℤ) (w w' : TimeWindow),
      rotate now w = some w' → w'.lastUpdate = w.lastUpdate) ∧
    (∀ (now1 now2 : ℤ) (w : TimeWindow) (p : TimeWindow × List TimeWindowData),
      GetData now1 now2 w = some p → p.1.lastUpdate = w.lastUpdate) ∧
    (∀ (now : ℤ) (opt : Option HistogramOption) (w : TimeWindow)
      (q : TimeWindow × String),
      PrintHistogram now opt w = some q → q.1.lastUpdate = w.lastUpdate) := by
  have happ : ∀ (now : ℤ) (v : Value) (w w' : TimeWindow),
      Append now v w = some w' → w'.lastUpdate = w.lastUpdate := by
    intro now v w w' h
    obtain ⟨w1, b, h1, h2, h3⟩ := Append_some_iff.mp h
    obtain ⟨-, hu, -⟩ := rotate_some_frame h1
    subst h3
    exact hu
  refine ⟨happ, ?_, ?_, ?_, ?_, ?_, ?_⟩
  · intro now v w w' h
    exact happ now v w w' (by rw [← Reset_eq_Append]; exact h)
  · intro now d w w' h
    obtain ⟨w1, v, b, h1, h2, h3, h4⟩ := Inc_some_iff.mp h
    subst h4
    rfl
  · intro now d w w' h
    obtain ⟨w1, v, b, h1, h2, h3, h4⟩ := Dec_some_iff.mp h
    subst h4
    rfl
  · intro now w w' h
    exact (rotate_some_frame h).2.1
  · intro now1 now2 w p h
    exact (rotate_some_frame (GetData_some_fst h)).2.1
  · intro now opt w q h
    exact (rotate_some_frame (PrintHistogram_some_fst h)).2.1

/-- Witness for claim C8 on a concrete size-1 window with lastUpdateTime 5:
Append, Reset, rotate, GetData and PrintHistogram at time 2 keep
lastUpdateTime at 5, while Inc and Dec move it to 2. -/
theorem lastUpdate_discipline_witness :
    (⟨[3], 1, 1, 2, 0, 5⟩ : TimeWindow).lastUpdate =
      (⟨[7], 1, 1, 0, 0, 5⟩ : TimeWindow).lastUpdate ∧
    (⟨[3], 1, 1, 2, 0, 5⟩ : TimeWindow).lastUpdate =
      (⟨[7], 1, 1, 0, 0, 5⟩ : TimeWindow).lastUpdate ∧
    (⟨[(0 : ℚ) + 3], 1, 1, 2, 0, 2⟩ : TimeWindow).lastUpdate = 2 ∧
    (⟨[(0 : ℚ) - 3], 1, 1, 2, 0, 2⟩ : TimeWindow).lastUpdate = 2 ∧
    (⟨[0], 1, 1, 2, 0, 5⟩ : TimeWindow).lastUpdate =
      (⟨[7], 1, 1, 0, 0, 5⟩ : TimeWindow).lastUpdate ∧
    ((⟨[0], 1, 1, 2, 0, 5⟩ : TimeWindow),
      [(⟨9, [0]⟩ : TimeWindowData)]).1.lastUpdate =
      (⟨[7], 1, 1, 0, 0, 5⟩ : TimeWindow).lastUpdate ∧
    ((⟨[0], 1, 1, 2, 0, 5⟩ : TimeWindow), "No data available\n").1.lastUpdate =
      (⟨[7], 1, 1, 0, 0, 5⟩ : TimeWindow).lastUpdate := by
  refine ⟨?_, ?_, ?_, ?_, ?_, ?_, ?_⟩
  · exact lastUpdate_discipline.1 2 3 (⟨[7], 1, 1, 0, 0, 5⟩ : TimeWindow)
      (⟨[3], 1, 1, 2, 0, 5⟩ : TimeWindow) (by decide)
  · exact lastUpdate_discipline.2.1 2 3 (⟨[7], 1, 1, 0, 0, 5⟩ : TimeWindow)
      (⟨[3], 1, 1, 2, 0, 5⟩ : TimeWindow) (by decide)
  · exact lastUpdate_discipline.2.2.1 2 3 (⟨[7], 1, 1, 0, 0, 5⟩ : TimeWindow)
      (⟨[(0 : ℚ) + 3], 1, 1, 2, 0, 2⟩ : TimeWindow) rfl
  · exact lastUpdate_discipline.2.2.2.1 2 3 (⟨[7], 1, 1, 0, 0, 5⟩ : TimeWindow)
      (⟨[(0 : ℚ) - 3], 1, 1, 2, 0, 2⟩ : TimeWindow) rfl
  · exact lastUpdate_discipline.2.2.2.2.1 2 (⟨[7], 1, 1, 0, 0, 5⟩ : TimeWindow)
      (⟨[0], 1, 1, 2, 0, 5⟩ : TimeWindow) (by decide)
  · exact lastUpdate_discipline.2.2.2.2.2.1 2 9 (⟨[7], 1, 1, 0, 0, 5⟩ : TimeWindow)
      ((⟨[0], 1, 1, 2, 0, 5⟩ : TimeWindow), [(⟨9, [0]⟩ : TimeWindowData)]) (by decide)
  · exact lastUpdate_discipline.2.2.2.2.2.2 2 none (⟨[7], 1, 1, 0, 0, 5⟩ : TimeWindow)
      ((⟨[0], 1, 1, 2, 0, 5⟩ : TimeWindow), "No data available\n") (by decide)

/-- Counterexample to claim C2: Sum performs no rotation. On a window whose
last rotation was ten bucket periods ago, Sum still returns the stale total
10, while the sum over the state rotated to the current time is 0; the
source of Sum takes only a read lock and never calls rotate. -/
theorem sum_no_rotation_cex :
    rotate 10 (⟨[5, 5], 2, 1, 0, 0, 0⟩ : TimeWindow) =
      some (⟨[0, 0], 2, 1, 10, 0, 0⟩ : TimeWindow) ∧
    Sum (⟨[5, 5], 2, 1, 0, 0, 0⟩ : TimeWindow) = 10 ∧
    Sum (⟨[0, 0], 2, 1, 10, 0, 0⟩ : TimeWindow) = 0 := by
  refine ⟨by decide, ?_, ?_⟩
  · show (0 : ℚ) + 5 + 5 = 10
    norm_num
  · show (0 : ℚ) + 0 + 0 = 0
    norm_num

/-- Claim C2 (amended): only GetData and the histogram renderer rotate before
computing — their post-state is exactly the rotated state — while Sum, Count,
Avg, GetLatestValue and LastUpdateTime perform no rotation: their results do
not depend on lastRotateTime and they leave the window unchanged. -/
theorem read_rotation_discipline (w : TimeWindow) (now now2 t : ℤ)
    (opt : Option HistogramOption) (hWF : WF w) (hd : w.duration ≠ 0) :
    ∃ w', rotate now w = some w' ∧
      (∀ p, GetData now now2 w = some p → p.1 = w') ∧
      (∀ q, PrintHistogram now opt w = some q → q.1 = w') ∧
      Sum { w with lastTime := t } = Sum w ∧
      Count { w with lastTime := t } = Count w ∧
      Avg { w with lastTime := t } = Avg w ∧
      GetLatestValue { w with lastTime := t } = GetLatestValue w ∧
      LastUpdateTime { w with lastTime := t } = LastUpdateTime w := by
  obtain ⟨w', hr, -⟩ := rotate_total now hWF hd
  refine ⟨w', hr, ?_, ?_, rfl, rfl, rfl, rfl, rfl⟩
  · intro p hp
    have h2 := GetData_some_fst hp
    rw [hr] at h2
    exact (Option.some.inj h2).symm
  · intro q hq
    have h2 := PrintHistogram_some_fst hq
    rw [hr] at h2
    exact (Option.some.inj h2).symm

/-- Witness for claim C2 (amended) on a concrete size-2 window three periods
after its last rotation. -/
theorem read_rotation_discipline_witness :
    ∃ w', rotate 3 (⟨[1, 0], 2, 1, 0, 0, 0⟩ : TimeWindow) = some w' ∧
      (∀ p, GetData 3 4 (⟨[1, 0], 2, 1, 0, 0, 0⟩ : TimeWindow) = some p → p.1 = w') ∧
      (∀ q, PrintHistogram 3 none (⟨[1, 0], 2, 1, 0, 0, 0⟩ : TimeWindow) = some q →
        q.1 = w') ∧
      Sum { (⟨[1, 0], 2, 1, 0, 0, 0⟩ : TimeWindow) with lastTime := 9 } =
        Sum (⟨[1, 0], 2, 1, 0, 0, 0⟩ : TimeWindow) ∧
      Count { (⟨[1, 0], 2, 1, 0, 0, 0⟩ : TimeWindow) with lastTime := 9 } =
        Count (⟨[1, 0], 2, 1, 0, 0, 0⟩ : TimeWindow) ∧
      Avg { (⟨[1, 0], 2, 1, 0, 0, 0⟩ : TimeWindow) with lastTime := 9 } =
        Avg (⟨[1, 0], 2, 1, 0, 0, 0⟩ : TimeWindow) ∧
      GetLatestValue { (⟨[1, 0], 2, 1, 0, 0, 0⟩ : TimeWindow) with lastTime := 9 } =
        GetLatestValue (⟨[1, 0], 2, 1, 0, 0, 0⟩ : TimeWindow) ∧
      LastUpdateTime { (⟨[1, 0], 2, 1, 0, 0, 0⟩ : TimeWindow) with lastTime := 9 } =
        LastUpdateTime (⟨[1, 0], 2, 1, 0, 0, 0⟩ : TimeWindow) :=
  read_rotation_discipline (⟨[1, 0], 2, 1, 0, 0, 0⟩ : TimeWindow) 3 4 9 none
    (by decide) (by decide)

/-- Counterexample to claim C3: Scan copies cursor and size from the record
without validation; a well-formed JSON record with cursor 5 and size 2 is
accepted with success and leaves the window with cursor outside the range
of valid indices. -/
theorem scan_cursor_invariant_cex :
    Scan (NewTimeWindow 2 1 0) (ScanValue.bytes (some ⟨[0, 0], 2, 1, 0, 5, 0⟩)) =
      Except.ok (⟨[0, 0], 2, 1, 0, 5, 0⟩ : TimeWindow) ∧
    ¬ WF (⟨[0, 0], 2, 1, 0, 5, 0⟩ : TimeWindow) ∧
    (⟨[0, 0], 2, 1, 0, 5, 0⟩ : TimeWindow).cursor = 5 ∧
    (⟨[0, 0], 2, 1, 0, 5, 0⟩ : TimeWindow).size = 2 :=
  ⟨rfl, by decide, rfl, rfl⟩

/-- Claim C3 (amended): the invariant 0 <= cursor < size (with a bucket slice
of exactly size entries) holds for every window constructed with positive
size and is preserved by rotation and by every public operation except Scan;
Scan copies an arbitrary cursor and size unvalidated, so deserialization can
break the invariant. -/
theorem cursor_invariant_preserved :
    (∀ sz dur t : ℤ, 0 < sz → WF (NewTimeWindow sz dur t)) ∧
    (∀ (now : ℤ) (w w' : TimeWindow), WF w → rotate now w = some w' → WF w') ∧
    (∀ (now : ℤ) (v : Value) (w w' : TimeWindow),
      WF w → Append now v w = some w' → WF w') ∧
    (∀ (now : ℤ) (d : Value) (w w' : TimeWindow),
      WF w → Inc now d w = some w' → WF w') ∧
    (∀ (now : ℤ) (d : Value) (w w' : TimeWindow),
      WF w → Dec now d w = some w' → WF w') ∧
    (∀ (now : ℤ) (v : Value) (w w' : TimeWindow),
      WF w → Reset now v w = some w' → WF w') ∧
    (∀ (now1 now2 : ℤ) (w : TimeWindow) (p : TimeWindow × List TimeWindowData),
      WF w → GetData now1 now2 w = some p → WF p.1) ∧
    (∀ (now : ℤ) (opt : Option HistogramOption) (w : TimeWindow)
      (q : TimeWindow × String),
      WF w → PrintHistogram now opt w = some q → WF q.1) := by
  refine ⟨?_, ?_, ?_, ?_, ?_, ?_, ?_, ?_⟩
  · intro sz dur t h
    refine ⟨le_refl 0, h, ?_⟩
    show ((List.replicate sz.toNat (0 : Value)).length : ℤ) = sz
    rw [List.length_replicate]
    omega
  · intro now w w' h1 h2
    exact rotate_some_wf h1 h2
  · intro now v w w' h1 h2
    exact Append_some_wf h1 h2
  · intro now d w w' h1 h2
    exact Inc_some_wf h1 h2
  · intro now d w w' h1 h2
    exact Dec_some_wf h1 h2
  · intro now v w w' h1 h2
    exact Append_some_wf h1 (by rw [← Reset_eq_Append]; exact h2)
  · intro now1 now2 w p h1 h2
    exact rotate_some_wf h1 (GetData_some_fst h2)
  · intro now opt w q h1 h2
    exact rotate_some_wf h1 (PrintHistogram_some_fst h2)

/-- Witness for claim C3 (amended): each preserved-invariant conjunct applied
to a concrete size-2 window one period after its last rotation. -/
theorem cursor_invariant_preserved_witness :
    WF (NewTimeWindow 3 1 0) ∧
    WF (⟨[1, 0], 2, 1, 1, 1, 0⟩ : TimeWindow) ∧
    WF (⟨[1, 9], 2, 1, 1, 1, 0⟩ : TimeWindow) ∧
    WF (⟨[1, (0 : ℚ) + 9], 2, 1, 1, 1, 1⟩ : TimeWindow) ∧
    WF (⟨[1, (0 : ℚ) - 9], 2, 1, 1, 1, 1⟩ : TimeWindow) ∧
    WF (⟨[1, 9], 2, 1, 1, 1, 0⟩ : TimeWindow) ∧
    WF ((⟨[1, 0], 2, 1, 1, 1, 0⟩ : TimeWindow),
      [(⟨5, [0]⟩ : TimeWindowData), (⟨4, [1]⟩ : TimeWindowData)]).1 ∧
    WF ((⟨[0, 0], 2, 1, 1, 1, 0⟩ : TimeWindow), "No data available\n").1 := by
  refine ⟨?_, ?_, ?_, ?_, ?_, ?_, ?_, ?_⟩
  · exact cursor_invariant_preserved.1 3 1 0 (by decide)
  · exact cursor_invariant_preserved.2.1 1 (⟨[1, 2], 2, 1, 0, 0, 0⟩ : TimeWindow)
      (⟨[1, 0], 2, 1, 1, 1, 0⟩ : TimeWindow) (by decide) (by decide)
  · exact cursor_invariant_preserved.2.2.1 1 9 (⟨[1, 2], 2, 1, 0, 0, 0⟩ : TimeWindow)
      (⟨[1, 9], 2, 1, 1, 1, 0⟩ : TimeWindow) (by decide) (by decide)
  · exact cursor_invariant_preserved.2.2.2.1 1 9 (⟨[1, 2], 2, 1, 0, 0, 0⟩ : TimeWindow)
      (⟨[1, (0 : ℚ) + 9], 2, 1, 1, 1, 1⟩ : TimeWindow) (by decide) rfl
  · exact cursor_invariant_preserved.2.2.2.2.1 1 9
      (⟨[1, 2], 2, 1, 0, 0, 0⟩ : TimeWindow)
      (⟨[1, (0 : ℚ) - 9], 2, 1, 1, 1, 1⟩ : TimeWindow) (by decide) rfl
  · exact cursor_invariant_preserved.2.2.2.2.2.1 1 9
      (⟨[1, 2], 2, 1, 0, 0, 0⟩ : TimeWindow)
      (⟨[1, 9], 2, 1, 1, 1, 0⟩ : TimeWindow) (by decide) (by decide)
  · exact cursor_invariant_preserved.2.2.2.2.2.2.1 1 5
      (⟨[1, 2], 2, 1, 0, 0, 0⟩ : TimeWindow)
      ((⟨[1, 0], 2, 1, 1, 1, 0⟩ : TimeWindow),
        [(⟨5, [0]⟩ : TimeWindowData), (⟨4, [1]⟩ : TimeWindowData)]) (by decide) (by decide)
  · exact cursor_invariant_preserved.2.2.2.2.2.2.2 1 none
      (⟨[0, 0], 2, 1, 0, 0, 0⟩ : TimeWindow)
      ((⟨[0, 0], 2, 1, 1, 1, 0⟩ : TimeWindow), "No data available\n")
      (by decide) (by decide)

/-- Counterexample to claim C5: Scan accepts the well-formed record with all
fields at their zero values (the unmarshalling of an empty JSON object),
leaving an empty bucket slice with cursor 0; GetLatestValue then indexes the
empty slice, which in the source panics with index out of range, modelled
here as none. -/
theorem get_latest_panics_after_scan_cex :
    Scan (NewTimeWindow 5 1 0) (ScanValue.bytes (some ⟨[], 0, 0, 0, 0, 0⟩)) =
      Except.ok (⟨[], 0, 0, 0, 0, 0⟩ : TimeWindow) ∧
    GetLatestValue (⟨[], 0, 0, 0, 0, 0⟩ : TimeWindow) = none :=
  ⟨rfl, rfl⟩

/-- Claim C5 (amended): on well-formed windows with non-zero duration — the
states produced by the constructor with positive size and duration and
preserved by every operation except Scan — every operation is total: no
bucket access can fail. Sum, Count, Avg and LastUpdateTime are total
functions of the state by construction; the operations that index buckets
all return a value. Scan can break well-formedness, after which reads can
panic. -/
theorem operations_total_on_wf (w : TimeWindow) (now now2 : ℤ) (v d : Value)
    (opt : Option HistogramOption) (hWF : WF w) (hd : w.duration ≠ 0) :
    (rotate now w).isSome ∧ (Append now v w).isSome ∧ (Inc now d w).isSome ∧
    (Dec now d w).isSome ∧ (Reset now v w).isSome ∧ (GetLatestValue w).isSome ∧
    (GetData now now2 w).isSome ∧ (PrintHistogram now opt w).isSome := by
  obtain ⟨w', hr, hwf'⟩ := rotate_total now hWF hd
  refine ⟨?_, ?_, ?_, ?_, ?_, ?_, ?_, ?_⟩
  · rw [hr]
    rfl
  · obtain ⟨w2, h2⟩ := Append_total now v hWF hd
    rw [h2]
    rfl
  · obtain ⟨w2, h2⟩ := Inc_total now d hWF hd
    rw [h2]
    rfl
  · obtain ⟨w2, h2⟩ := Dec_total now d hWF hd
    rw [h2]
    rfl
  · obtain ⟨w2, h2⟩ := Append_total now v hWF hd
    rw [Reset_eq_Append, h2]
    rfl
  · obtain ⟨h0, h1, h2⟩ := hWF
    unfold GetLatestValue
    rw [getBucket_some h0 (by omega)]
    rfl
  · rw [GetData_eq hr hwf']
    rfl
  · rw [PrintHistogram_eq hr (histValues_eq hwf')]
    rfl

/-- Witness for claim C5 (amended) at a concrete well-formed window. -/
theorem operations_total_on_wf_witness :
    (rotate 3 (⟨[1, 0], 2, 1, 0, 0, 0⟩ : TimeWindow)).isSome ∧
    (Append 3 7 (⟨[1, 0], 2, 1, 0, 0, 0⟩ : TimeWindow)).isSome ∧
    (Inc 3 7 (⟨[1, 0], 2, 1, 0, 0, 0⟩ : TimeWindow)).isSome ∧
    (Dec 3 7 (⟨[1, 0], 2, 1, 0, 0, 0⟩ : TimeWindow)).isSome ∧
    (Reset 3 7 (⟨[1, 0], 2, 1, 0, 0, 0⟩ : TimeWindow)).isSome ∧
    (GetLatestValue (⟨[1, 0], 2, 1, 0, 0, 0⟩ : TimeWindow)).isSome ∧
    (GetData 3 4 (⟨[1, 0], 2, 1, 0, 0, 0⟩ : TimeWindow)).isSome ∧
    (PrintHistogram 3 none (⟨[1, 0], 2, 1, 0, 0, 0⟩ : TimeWindow)).isSome :=
  operations_total_on_wf (⟨[1, 0], 2, 1, 0, 0, 0⟩ : TimeWindow) 3 4 7 7 none
    (by decide) (by decide)

/-- Claim C6: the histogram renderer computes maxValue as the maximum over
strictly positive bucket values only (non-positive values contribute no bar
and are excluded); when no bucket is strictly positive it returns the fixed
no-data message; when some bucket is strictly positive it returns non-empty
chart text different from the no-data message, whose bar rows have one
two-character column per bucket, most recent first, with the column at
offset i filled at level h exactly when the value of the bucket shown there
is at least maxValue * h / height. -/
theorem histogram_spec (w : TimeWindow) (now : ℤ) (opt : Option HistogramOption)
    (hWF : WF w) (hd : w.duration ≠ 0) :
    ∃ w' vals, rotate now w = some w' ∧ histValues w' = some vals ∧
      0 ≤ histMax vals ∧
      (∀ v ∈ w'.buckets, 0 < v → v ≤ histMax vals) ∧
      (0 < histMax vals → histMax vals ∈ w'.buckets) ∧
      ((∀ v ∈ w'.buckets, v ≤ 0) →
        PrintHistogram now opt w = some (w', "No data available\n")) ∧
      ((∃ v ∈ w'.buckets, 0 < v) →
        PrintHistogram now opt w = some (w',
          "\nTime Window Histogram:\n\n" ++
            barRows vals (histMax vals) (opt.getD DefaultHistogramOption).Height ++
            sepRow w'.size ++ valueRow vals ++ timeRow w'.size (histTimes w')) ∧
        "\nTime Window Histogram:\n\n" ++
            barRows vals (histMax vals) (opt.getD DefaultHistogramOption).Height ++
            sepRow w'.size ++ valueRow vals ++ timeRow w'.size (histTimes w') ≠ "" ∧
        "\nTime Window Histogram:\n\n" ++
            barRows vals (histMax vals) (opt.getD DefaultHistogramOption).Height ++
            sepRow w'.size ++ valueRow vals ++ timeRow w'.size (histTimes w') ≠
          "No data available\n" ∧
        (∀ thr : ℚ, (barCells vals thr).length = w'.size.toNat) ∧
        (∀ lev : ℤ, 1 ≤ lev → lev ≤ (opt.getD DefaultHistogramOption).Height →
          ∀ i : Nat, i < w'.size.toNat →
            (barCells vals (histMax vals * (lev : ℚ) /
                ((opt.getD DefaultHistogramOption).Height : ℚ))).get? i =
              some (if histMax vals * (lev : ℚ) /
                  ((opt.getD DefaultHistogramOption).Height : ℚ) ≤ bucketAt w' i
                then "▇ " else "  "))) := by
  obtain ⟨w', hr, hwf'⟩ := rotate_total now hWF hd
  have hv := histValues_eq hwf'
  obtain ⟨h0, h1, h2⟩ := hwf'
  set vals : List Value := (List.range w'.size.toNat).map
    (fun i => if 0 < bucketAt w' i then bucketAt w' i else 0) with hvals
  have hub : ∀ v ∈ w'.buckets, 0 < v → v ≤ histMax vals := by
    intro v hvmem hvpos
    obtain ⟨i, hi, hbi⟩ := mem_bucketAt ⟨h0, h1, h2⟩ hvmem
    have himem : (if 0 < bucketAt w' i then bucketAt w' i else 0) ∈ vals := by
      rw [hvals]
      exact List.mem_map.mpr ⟨i, List.mem_range.mpr (by omega), rfl⟩
    rw [hbi, if_pos hvpos] at himem
    rw [histMax_eq_foldl_max]
    exact mem_le_foldl_max 0 himem
  have hnn : 0 ≤ histMax vals := by
    rw [histMax_eq_foldl_max]
    exact le_foldl_max vals 0
  refine ⟨w', vals, hr, hv, hnn, hub, ?_, ?_, ?_⟩
  · intro hMpos
    rw [histMax_eq_foldl_max] at hMpos ⊢
    rcases foldl_max_eq_init_or_mem vals 0 with hcase | hcase
    · rw [hcase] at hMpos
      exact absurd hMpos (lt_irrefl 0)
    · rw [hvals] at hcase
      obtain ⟨i, hirange, hieq⟩ := List.mem_map.mp hcase
      have hi2 : (i : ℤ) < w'.size := by
        have := List.mem_range.mp hirange
        omega
      by_cases hb : 0 < bucketAt w' i
      · rw [if_pos hb] at hieq
        rw [← hieq]
        exact bucketAt_mem ⟨h0, h1, h2⟩ hi2
      · rw [if_neg hb] at hieq
        rw [← hieq] at hMpos
        exact absurd hMpos (lt_irrefl 0)
  · intro hall
    have hM0 : histMax vals = 0 := by
      rw [histMax_eq_foldl_max]
      refine le_antisymm (foldl_max_le 0 (le_refl 0) ?_)
        (le_foldl_max vals 0)
      intro a ha
      rw [hvals] at ha
      obtain ⟨i, hirange, hieq⟩ := List.mem_map.mp ha
      have hi2 : (i : ℤ) < w'.size := by
        have := List.mem_range.mp hirange
        omega
      by_cases hb : 0 < bucketAt w' i
      · exact absurd hb
          (not_lt.mpr (hall _ (bucketAt_mem ⟨h0, h1, h2⟩ hi2)))
      · rw [if_neg hb] at hieq
        rw [← hieq]
    rw [PrintHistogram_eq hr hv, if_pos hM0]
  · intro hex
    obtain ⟨v, hvmem, hvpos⟩ := hex
    have hMpos : 0 < histMax vals := lt_of_lt_of_le hvpos (hub v hvmem hvpos)
    have hMne : ¬ histMax vals = 0 := fun hM => absurd (hM ▸ hMpos) (lt_irrefl 0)
    refine ⟨?_, chart_ne_empty _ _ _ _, chart_ne_msg _ _ _ _, ?_, ?_⟩
    · rw [PrintHistogram_eq hr hv, if_neg hMne]
    · intro thr
      show (vals.map (fun v => if thr ≤ v then "▇ " else "  ")).length = w'.size.toNat
      rw [List.length_map, hvals, List.length_map, List.length_range]
    · intro lev hlev1 hlev2 i hi
      have hget : vals.get? i =
          some (if 0 < bucketAt w' i then bucketAt w' i else 0) := by
        rw [hvals, List.get?_map, List.get?_range hi]
        rfl
      have hHpos : (0 : ℚ) < ((opt.getD DefaultHistogramOption).Height : ℚ) := by
        exact_mod_cast (by omega : (0 : ℤ) < (opt.getD DefaultHistogramOption).Height)
      have hlpos : (0 : ℚ) < (lev : ℚ) := by
        exact_mod_cast (by omega : (0 : ℤ) < lev)
      have hthr : 0 < histMax vals * (lev : ℚ) /
          ((opt.getD DefaultHistogramOption).Height : ℚ) :=
        div_pos (mul_pos hMpos hlpos) hHpos
      show (vals.map (fun v => if histMax vals * (lev : ℚ) /
          ((opt.getD DefaultHistogramOption).Height : ℚ) ≤ v
        then "▇ " else "  ")).get? i = _
      rw [List.get?_map, hget]
      by_cases hb : 0 < bucketAt w' i
      · rw [if_pos hb]
        rfl
      · rw [if_neg hb]
        show some (if histMax vals * (lev : ℚ) /
            ((opt.getD DefaultHistogramOption).Height : ℚ) ≤ 0
          then "▇ " else "  ") = _
        rw [if_neg (not_le.mpr hthr),
          if_neg (not_le.mpr (lt_of_le_of_lt (not_lt.mp hb) hthr))]

/-- Witness for claim C6 on a concrete size-2 window holding one positive
bucket, rendered with height 3 at a time within the current bucket period. -/
theorem histogram_spec_witness :
    ∃ w' vals, rotate 0 (⟨[1, 0], 2, 1, 0, 0, 0⟩ : TimeWindow) = some w' ∧
      histValues w' = some vals ∧
      0 ≤ histMax vals ∧
      (∀ v ∈ w'.buckets, 0 < v → v ≤ histMax vals) ∧
      (0 < histMax vals → histMax vals ∈ w'.buckets) ∧
      ((∀ v ∈ w'.buckets, v ≤ 0) →
        PrintHistogram 0 (some ⟨3⟩) (⟨[1, 0], 2, 1, 0, 0, 0⟩ : TimeWindow) =
          some (w', "No data available\n")) ∧
      ((∃ v ∈ w'.buckets, 0 < v) →
        PrintHistogram 0 (some ⟨3⟩) (⟨[1, 0], 2, 1, 0, 0, 0⟩ : TimeWindow) =
          some (w',
          "\nTime Window Histogram:\n\n" ++
            barRows vals (histMax vals)
              ((some ⟨3⟩ : Option HistogramOption).getD DefaultHistogramOption).Height ++
            sepRow w'.size ++ valueRow vals ++ timeRow w'.size (histTimes w')) ∧
        "\nTime Window Histogram:\n\n" ++
            barRows vals (histMax vals)
              ((some ⟨3⟩ : Option HistogramOption).getD DefaultHistogramOption).Height ++
            sepRow w'.size ++ valueRow vals ++ timeRow w'.size (histTimes w') ≠ "" ∧
        "\nTime Window Histogram:\n\n" ++
            barRows vals (histMax vals)
              ((some ⟨3⟩ : Option HistogramOption).getD DefaultHistogramOption).Height ++
            sepRow w'.size ++ valueRow vals ++ timeRow w'.size (histTimes w') ≠
          "No data available\n" ∧
        (∀ thr : ℚ, (barCells vals thr).length = w'.size.toNat) ∧
        (∀ lev : ℤ, 1 ≤ lev →
          lev ≤ ((some ⟨3⟩ : Option HistogramOption).getD DefaultHistogramOption).Height →
          ∀ i : Nat, i < w'.size.toNat →
            (barCells vals (histMax vals * (lev : ℚ) /
                (((some ⟨3⟩ : Option HistogramOption).getD
                  DefaultHistogramOption).Height : ℚ))).get? i =
              some (if histMax vals * (lev : ℚ) /
                  (((some ⟨3⟩ : Option HistogramOption).getD
                    DefaultHistogramOption).Height : ℚ) ≤ bucketAt w' i
                then "▇ " else "  "))) :=
  histogram_spec (⟨[1, 0], 2, 1, 0, 0, 0⟩ : TimeWindow) 0
    (some ⟨3⟩) (by decide) (by decide)

end HStat
